import Mathlib

set_option linter.unusedVariables false

/-!
Verification of the TheIntercom application core.

Embedded components:
* the framed-message parser of src/main/app_hf_msg_prs.c (hf_msg_parse,
  hf_msg_parser_reset_state, hf_msg_split_args);
* the audio pacing engine of src/main/bt_app_hf.c (bt_app_send_data_task,
  bt_app_hf_outgoing_cb, bt_app_hf_create_audio_data);
* the work dispatcher of bt_app_core.c (bt_app_work_dispatch,
  bt_app_task_handler);
* the command handlers of app_hf_msg_set.c (hf_cme_err_handler,
  hf_d_handler, hf_volume_control_handler).

Machine integers are modelled as Nat (the C counters are nonneg ints and
uint64 timestamps on a monotone clock); parsed command arguments are Int.
The fixed C array `buf` of the parser is modelled as a total function
`Nat → Char`; the registered completion callback is not stored in the
state: each parse step instead returns the callback invocation (frame
characters before the written terminating NUL, and length) it performs,
so a run collects the exact sequence of callback calls.
-/

/-! Parser state machine, from src/main/app_hf_msg_prs.c. -/

inductive HfPrsState
  | idle
  | hdr
  | payl
  deriving DecidableEq, Repr

inductive HfPrsErr
  | ok
  | inProgress
  | hdrUndetected
  | hdrSyncFailed
  | bufOverflow
  deriving DecidableEq, Repr

/-- HF_MSG_HDR_LEN in app_hf_msg_prs.c line 63. -/
def HF_MSG_HDR_LEN : Nat := 3

/-- the header literal, app_hf_msg_prs.c line 64. -/
def hf_msg_hdr : List Char := ['h', 'f', ' ']

/-- HF_MSG_TAIL_LEN in app_hf_msg_prs.c line 67. -/
def HF_MSG_TAIL_LEN : Nat := 1

/-- the tail literal, app_hf_msg_prs.c line 68. -/
def hf_msg_tail : List Char := [';']

/-- hf_msg_prs_cb_t: parser control block.  The C array buf is a total
function; the callback member is handled separately (see module header).
HF_MSG_LEN_MAX comes from the header app_hf_msg_prs.h which is not in
src, so the parse function takes it as the parameter maxLen. -/
structure HfMsgPrsCb where
  state : HfPrsState
  buf : Nat → Char
  cnt : Nat
  h_idx : Nat
  t_idx : Nat

/-- hf_msg_parser_reset_state, app_hf_msg_prs.c lines 70-76. -/
def hf_msg_parser_reset_state (prs : HfMsgPrsCb) : HfMsgPrsCb :=
  { prs with state := .idle, cnt := 0, h_idx := 0, t_idx := 0 }

/-- The character sequence a callback receives: buf[0..cnt), i.e. the
frame in front of the terminating NUL written at buf[cnt]. -/
def frameOf (buf : Nat → Char) (cnt : Nat) : List Char :=
  (List.range cnt).map buf

/-- hf_msg_parse, app_hf_msg_prs.c lines 83-139, one input character.
Returns (err, updated control block, callback invocation performed, if
any, as (frame, length)).  Out-of-range reads of the header/tail
literals (possible only from control blocks the program never reaches)
are modelled with getD. -/
def hf_msg_parse (maxLen : Nat) (c : Char) (prs : HfMsgPrsCb) :
    HfPrsErr × HfMsgPrsCb × Option (List Char × Nat) :=
  match prs.state with
  | .idle =>
    if c = hf_msg_hdr.getD 0 '\x00' then
      (.inProgress,
        { prs with state := .hdr, buf := Function.update prs.buf 0 c,
                   cnt := 1, h_idx := 1 }, none)
    else
      (.hdrUndetected, prs, none)
  | .hdr =>
    if c = hf_msg_hdr.getD prs.h_idx '\x00' then
      let prs1 := { prs with buf := Function.update prs.buf prs.cnt c,
                             cnt := prs.cnt + 1, h_idx := prs.h_idx + 1 }
      if prs1.h_idx = HF_MSG_HDR_LEN then
        (.inProgress, { prs1 with state := .payl, t_idx := 0 }, none)
      else
        (.inProgress, prs1, none)
    else
      (.hdrSyncFailed, hf_msg_parser_reset_state prs, none)
  | .payl =>
    let prs1 := { prs with buf := Function.update prs.buf prs.cnt c,
                           cnt := prs.cnt + 1 }
    if c = hf_msg_tail.getD prs1.t_idx '\x00' then
      if prs1.t_idx + 1 = HF_MSG_TAIL_LEN then
        let prs2 := { prs1 with buf := Function.update prs1.buf prs1.cnt '\x00' }
        (.ok, hf_msg_parser_reset_state prs2,
          some (frameOf prs2.buf prs2.cnt, prs2.cnt))
      else
        let prs2 := { prs1 with t_idx := prs1.t_idx + 1 }
        if prs2.cnt ≥ maxLen then
          (.bufOverflow, hf_msg_parser_reset_state prs2, none)
        else
          (.inProgress, prs2, none)
    else
      let prs2 := { prs1 with t_idx := 0 }
      if prs2.cnt ≥ maxLen then
        (.bufOverflow, hf_msg_parser_reset_state prs2, none)
      else
        (.inProgress, prs2, none)

/-- Feeding a byte stream one character at a time (the uart read loop of
main.c feeds hf_msg_parse character by character).  Collects the error
code of every call and every callback invocation, in order. -/
def hf_msg_parse_stream (maxLen : Nat) (cs : List Char) (prs : HfMsgPrsCb) :
    List HfPrsErr × HfMsgPrsCb × List (List Char × Nat) :=
  match cs with
  | [] => ([], prs, [])
  | c :: rest =>
    let r1 := hf_msg_parse maxLen c prs
    let r2 := hf_msg_parse_stream maxLen rest r1.2.1
    (r1.1 :: r2.1, r2.2.1, r1.2.2.toList ++ r2.2.2)

/-- The parser control block as the program starts it: IDLE, zeroed
counters, zero-initialised buffer. -/
def initPrs : HfMsgPrsCb :=
  { state := .idle, buf := fun _ => '\x00', cnt := 0, h_idx := 0, t_idx := 0 }

/-! Argument splitter, from src/main/app_hf_msg_prs.c lines 142-176.
The C function walks a char region [start, end) with a pointer,
NUL-terminating each token in place.  The region is modelled as a
List Char whose length is the end index; a read at the end index
yields the NUL that hf_msg_args_parser wrote over the tail byte, hence
reads use getD with NUL default.  Token starts are returned as indices
(the C argv pointers) together with the mutated buffer. -/

/-- C isspace over the ASCII range (ctype.h). -/
def c_isspace (c : Char) : Bool :=
  c = ' ' || c = '\t' || c = '\n' || c = '\x0b' || c = '\x0c' || c = '\r'

/-- The loop `while (isspace(*p) && p != end) ++p;`: the index of the
first non-space character at or after p (or the end of the region). -/
def skip_ws (buf : List Char) (p : Nat) : Nat :=
  p + ((buf.drop p).takeWhile c_isspace).length

/-- The loop `while (!isspace(*p) && p != end) ++p;`: the index of the
first space character at or after p (or the end of the region). -/
def scan_tok (buf : List Char) (p : Nat) : Nat :=
  p + ((buf.drop p).takeWhile (fun c => !c_isspace c)).length

/-- The body of the `for (int i = 0; i < max_argn; ++i)` loop of
hf_msg_split_args: one fuel unit per argument slot.  acc collects the
argv indices recorded so far. -/
def hf_msg_split_loop (buf : List Char) (p : Nat) (fuel : Nat) (acc : List Nat) :
    List Nat × List Char :=
  match fuel with
  | 0 => (acc, buf)
  | fuel + 1 =>
    let q := skip_ws buf p
    if q = buf.length then
      (acc, buf)
    else
      let r := scan_tok buf (q + 1)
      if r = buf.length then
        (acc ++ [q], buf)
      else
        hf_msg_split_loop (buf.set r '\x00') (r + 1) fuel (acc ++ [q])

/-- hf_msg_split_args, app_hf_msg_prs.c lines 142-176: returns the argv
indices (their count is the *argn output) and the buffer after the
in-place NUL terminations.  A zero argument limit returns immediately
(the `*argn == 0` guard). -/
def hf_msg_split_args (buf : List Char) (max_argn : Nat) : List Nat × List Char :=
  if max_argn = 0 then ([], buf) else hf_msg_split_loop buf 0 max_argn []

/-- Reading a token the way the C code later reads argv[i]: the
characters from index q up to the NUL terminator. -/
def cstr (buf : List Char) (q : Nat) : List Char :=
  (buf.drop q).takeWhile (fun c => c ≠ '\x00')

/-! Command handlers, from app_hf_msg_set.c (src/unnamed/part_001).
Outgoing effects (printf diagnostics and esp_hf_ag_* calls) are
collected as an event list in program order.  Enum values of
esp_hf_ag_api.h (not in src) follow the ranges the spec's command table
gives: response codes 0..7, CME error codes 0..32, volume targets 0/1. -/

inductive HfEv
  | printMacAddressAndRole
  | printInsufficientArgs
  | printInvalidArg (which : Nat)
  | printSendCme
  | printVolumeUpdate
  | printDialNumber (num : List Char)
  | cmeeSend (response error : Int)
  | outCall (num : List Char)
  | volumeControl (target volume : Int)
  deriving DecidableEq, Repr

/-- ESP_HF_AT_RESPONSE_CODE_OK: first response code (spec: response in
a range starting at 0). -/
def ESP_HF_AT_RESPONSE_CODE_OK : Int := 0

/-- ESP_HF_AT_RESPONSE_CODE_CME: last response code (spec: response in
0..7). -/
def ESP_HF_AT_RESPONSE_CODE_CME : Int := 7

/-- ESP_HF_CME_AG_FAILURE: first CME error code (spec: error in a range
starting at 0). -/
def ESP_HF_CME_AG_FAILURE : Int := 0

/-- ESP_HF_CME_NETWORK_NOT_ALLOWED: last CME error code (spec: error in
0..32). -/
def ESP_HF_CME_NETWORK_NOT_ALLOWED : Int := 32

/-- ESP_HF_VOLUME_CONTROL_TARGET_SPK. -/
def ESP_HF_VOLUME_CONTROL_TARGET_SPK : Int := 0

/-- ESP_HF_VOLUME_CONTROL_TARGET_MIC. -/
def ESP_HF_VOLUME_CONTROL_TARGET_MIC : Int := 1

/-- A run of decimal digits turned into a number; none when the run is
empty. -/
def read_digits (s : List Char) : Option Nat :=
  let ds := s.takeWhile Char.isDigit
  if ds.isEmpty then none
  else some (ds.foldl (fun acc c => acc * 10 + (c.toNat - 48)) 0)

/-- sscanf(s, "%d", &v): skip whitespace, optional sign, a digit run.
Returns none when no integer can be read (sscanf result 0).  Values are
unbounded Int; the int overflow of the C library on huge literals is
out of scope of the claims. -/
def sscanf_d (s : List Char) : Option Int :=
  let s1 := s.dropWhile (fun c => c_isspace c)
  match s1 with
  | '-' :: rest => (read_digits rest).map (fun n => -(n : Int))
  | '+' :: rest => (read_digits rest).map (fun n => (n : Int))
  | _ => (read_digits s1).map (fun n => (n : Int))

/-- hf_cme_err_handler ("ate"), app_hf_msg_set.c lines 261-286.  Returns
the C return value and the emitted effects in program order.  The C
range test on the response code is transcribed verbatim:
`response_code < ESP_HF_AT_RESPONSE_CODE_OK && response_code >
ESP_HF_AT_RESPONSE_CODE_CME`. -/
def hf_cme_err_handler (argn : Nat) (argv : List (List Char)) : Int × List HfEv :=
  let ev0 : List HfEv := [.printMacAddressAndRole]
  if argn ≠ 3 then (1, ev0 ++ [.printInsufficientArgs])
  else
    match sscanf_d (argv.getD 1 []) with
    | none => (1, ev0 ++ [.printInvalidArg 1])
    | some response_code =>
      if response_code < ESP_HF_AT_RESPONSE_CODE_OK ∧
          response_code > ESP_HF_AT_RESPONSE_CODE_CME then
        (1, ev0 ++ [.printInvalidArg 1])
      else
        match sscanf_d (argv.getD 2 []) with
        | none => (1, ev0 ++ [.printInvalidArg 2])
        | some error_code =>
          if error_code < ESP_HF_CME_AG_FAILURE ∨
              error_code > ESP_HF_CME_NETWORK_NOT_ALLOWED then
            (1, ev0 ++ [.printInvalidArg 2])
          else
            (0, ev0 ++ [.printSendCme, .cmeeSend response_code error_code])

/-- hf_d_handler ("d"), app_hf_msg_set.c lines 338-348: prints the MAC
line first; on wrong argument count only prints the diagnostic; the one
return statement yields 0 on every path. -/
def hf_d_handler (argn : Nat) (argv : List (List Char)) : Int × List HfEv :=
  let ev0 : List HfEv := [.printMacAddressAndRole]
  if argn ≠ 2 then (0, ev0 ++ [.printInsufficientArgs])
  else (0, ev0 ++ [.printDialNumber (argv.getD 1 []), .outCall (argv.getD 1 [])])

/-- hf_volume_control_handler ("vu"), app_hf_msg_set.c lines 181-211.
Each diagnostic is followed by the MAC line (the print order of this
handler), validation failures return 1. -/
def hf_volume_control_handler (argn : Nat) (argv : List (List Char)) : Int × List HfEv :=
  if argn ≠ 3 then (1, [.printInsufficientArgs, .printMacAddressAndRole])
  else
    match sscanf_d (argv.getD 1 []) with
    | none => (1, [.printInvalidArg 1, .printMacAddressAndRole])
    | some target =>
      if target ≠ ESP_HF_VOLUME_CONTROL_TARGET_SPK ∧
          target ≠ ESP_HF_VOLUME_CONTROL_TARGET_MIC then
        (1, [.printInvalidArg 1, .printMacAddressAndRole])
      else
        match sscanf_d (argv.getD 2 []) with
        | none => (1, [.printInvalidArg 2, .printMacAddressAndRole])
        | some volume =>
          if volume < 0 ∨ volume > 15 then
            (1, [.printInvalidArg 2, .printMacAddressAndRole])
          else
            (0, [.printVolumeUpdate, .printMacAddressAndRole,
                 .volumeControl target volume])

/-! Ring buffer and audio pacing engine, from src/main/bt_app_hf.c.
The FreeRTOS byte ring buffer (RINGBUF_TYPE_BYTEBUF) is modelled as a
byte queue (oldest first) plus the physical position of the oldest
byte inside the circular storage: that position decides how many bytes
a single ReceiveUpTo can hand out, because a byte buffer returns data
only up to the end of the storage and wrapped data needs a second
call. -/

structure RingBuf where
  capacity : Nat
  read_pos : Nat
  data : List Nat
  deriving DecidableEq, Repr

/-- ESP_HFP_RINGBUF_SIZE, bt_app_hf.c line 177. -/
def ESP_HFP_RINGBUF_SIZE : Nat := 3600

/-- xRingbufferSend with zero timeout: append when the free space
suffices, otherwise fail and leave the buffer unchanged.  (A byte
buffer may split the written bytes across the physical wrap, which the
logical byte queue does not record; the read position is untouched by
a send.) -/
def xRingbufferSend (rb : RingBuf) (item : List Nat) : Bool × RingBuf :=
  if rb.data.length + item.length ≤ rb.capacity then
    (true, { rb with data := rb.data ++ item })
  else
    (false, rb)

/-- xRingbufferReceiveUpTo on a byte buffer, followed by
vRingbufferReturnItem on the received item: yields at most sz bytes,
further limited to the contiguous run up to the physical end of the
storage (capacity - read_pos bytes; wrapped data would need a second
call), and frees exactly the yielded bytes.  Returns the item and the
buffer afterwards; the returned item's length is the item_size output
of the C call. -/
def xRingbufferReceiveUpTo (rb : RingBuf) (sz : Nat) : List Nat × RingBuf :=
  let n := min (min sz rb.data.length) (rb.capacity - rb.read_pos)
  (rb.data.take n,
    { rb with data := rb.data.drop n, read_pos := (rb.read_pos + n) % rb.capacity })

/-- bt_app_hf_outgoing_cb, bt_app_hf.c lines 205-223: the pull callback
of the audio transport.  vRingbufferGetInfo reports the occupancy; when
it is at least sz the code calls xRingbufferReceiveUpTo for sz bytes,
memcpys item_size (the received size, not sz) bytes to the caller,
returns the item, and returns sz; otherwise it returns 0 without
reading.  Result: (return value, bytes copied to the caller, ring
buffer afterwards). -/
def bt_app_hf_outgoing_cb (rb : RingBuf) (sz : Nat) : Nat × List Nat × RingBuf :=
  let item_size := rb.data.length
  if item_size ≥ sz then
    let r := xRingbufferReceiveUpTo rb sz
    (sz, r.1, r.2)
  else
    (0, [], rb)

/-- TABLE_SIZE, bt_app_hf.c line 161. -/
def TABLE_SIZE : Nat := 100

/-- TABLE_SIZE_BYTE, bt_app_hf.c line 162. -/
def TABLE_SIZE_BYTE : Nat := 200

/-- sine_int16, bt_app_hf.c lines 164-175. -/
def sine_int16 : List Int :=
  [     0,    2057,    4107,    6140,    8149,   10126,   12062,   13952,   15786,   17557,
    19260,   20886,   22431,   23886,   25247,   26509,   27666,   28714,   29648,   30466,
    31163,   31738,   32187,   32509,   32702,   32767,   32702,   32509,   32187,   31738,
    31163,   30466,   29648,   28714,   27666,   26509,   25247,   23886,   22431,   20886,
    19260,   17557,   15786,   13952,   12062,   10126,    8149,    6140,    4107,    2057,
        0,   -2057,   -4107,   -6140,   -8149,  -10126,  -12062,  -13952,  -15786,  -17557,
   -19260,  -20886,  -22431,  -23886,  -25247,  -26509,  -27666,  -28714,  -29648,  -30466,
   -31163,  -31738,  -32187,  -32509,  -32702,  -32767,  -32702,  -32509,  -32187,  -31738,
   -31163,  -30466,  -29648,  -28714,  -27666,  -26509,  -25247,  -23886,  -22431,  -20886,
   -19260,  -17557,  -15786,  -13952,  -12062,  -10126,   -8149,   -6140,   -4107,   -2057]

/-- One byte of `data = (uint8_t *)sine_int16` (bt_app_hf.c line 237):
the little-endian byte view of the int16 table on the ESP32.  none for
an out-of-bounds access. -/
def sine_byte? (i : Nat) : Option Nat :=
  if i < TABLE_SIZE_BYTE then
    let v := sine_int16.getD (i / 2) 0
    let u := (v % 65536).toNat
    some (if i % 2 = 0 then u % 256 else u / 256)
  else
    none

/-- bt_app_hf_create_audio_data, bt_app_hf.c lines 234-246: fills sz
bytes from the cyclic table (index++, then `if (index >= TABLE_SIZE_BYTE)
index -= TABLE_SIZE_BYTE`).  The persistent static `index` is threaded
explicitly; an out-of-bounds table access yields none.  The C function
returns sz; here the produced bytes and the final index are returned. -/
def bt_app_hf_create_audio_data (index : Nat) (sz : Nat) : Option (List Nat × Nat) :=
  match sz with
  | 0 => some ([], index)
  | n + 1 =>
    match sine_byte? index with
    | none => none
    | some b =>
      let index1 := index + 1
      let index2 := if index1 ≥ TABLE_SIZE_BYTE then index1 - TABLE_SIZE_BYTE else index1
      match bt_app_hf_create_audio_data index2 n with
      | none => none
      | some r => some (b :: r.1, r.2)

/-- PCM_BLOCK_DURATION_US, bt_app_hf.c line 180. -/
def PCM_BLOCK_DURATION_US : Nat := 7500

/-- WBS_PCM_INPUT_DATA_SIZE, bt_app_hf.c line 188 (evaluates to 240). -/
def WBS_PCM_INPUT_DATA_SIZE : Nat := 16 * PCM_BLOCK_DURATION_US / 1000 * 2

/-- PCM_INPUT_DATA_SIZE, bt_app_hf.c line 189 (evaluates to 120). -/
def PCM_INPUT_DATA_SIZE : Nat := 8 * PCM_BLOCK_DURATION_US / 1000 * 2

/-- The two values s_audio_code can hold when the generation task runs
(set in the ESP_HF_AUDIO_STATE_EVT branch of bt_app_hf_cb). -/
inductive EspHfAudioState
  | connected
  | connectedMsbc
  deriving DecidableEq, Repr

/-- The statics of the generation task: s_last_enter_time, s_audio_code,
and the persistent index of bt_app_hf_create_audio_data. -/
structure SendTaskState where
  s_last_enter_time : Nat
  s_audio_code : EspHfAudioState
  sine_index : Nat
  deriving DecidableEq, Repr

/-- One wake of bt_app_send_data_task, bt_app_hf.c lines 266-310 (the
loop body after xSemaphoreTake succeeds), at clock value now
(esp_timer_get_time).  Returns the updated statics, the ring buffer
afterwards, the number of synthesized bytes (frame_data_num; 0 means
the wake did nothing), and whether esp_hf_ag_outgoing_data_ready was
called. -/
def bt_app_send_data_wake (st : SendTaskState) (rb : RingBuf) (now : Nat) :
    SendTaskState × RingBuf × Nat × Bool :=
  let s_us_duration := now - st.s_last_enter_time
  let frame_data_num :=
    match st.s_audio_code with
    | .connectedMsbc => s_us_duration / PCM_BLOCK_DURATION_US * WBS_PCM_INPUT_DATA_SIZE
    | .connected => s_us_duration / PCM_BLOCK_DURATION_US * PCM_INPUT_DATA_SIZE
  let s_last_enter_time1 :=
    match st.s_audio_code with
    | .connectedMsbc =>
      st.s_last_enter_time + frame_data_num / WBS_PCM_INPUT_DATA_SIZE * PCM_BLOCK_DURATION_US
    | .connected =>
      st.s_last_enter_time + frame_data_num / PCM_INPUT_DATA_SIZE * PCM_BLOCK_DURATION_US
  let st1 := { st with s_last_enter_time := s_last_enter_time1 }
  if frame_data_num = 0 then
    (st1, rb, 0, false)
  else
    match bt_app_hf_create_audio_data st1.sine_index frame_data_num with
    | none => (st1, rb, frame_data_num, false)
    | some r =>
      let rb1 := (xRingbufferSend rb r.1).2
      let item_size := rb1.data.length
      let ready :=
        match st.s_audio_code with
        | .connectedMsbc => item_size ≥ WBS_PCM_INPUT_DATA_SIZE
        | .connected => item_size ≥ PCM_INPUT_DATA_SIZE
      ({ st1 with sine_index := r.2 }, rb1, frame_data_num, ready)

/-! Work dispatcher, from bt_app_core.c (src/unnamed/part_002).  The
byte-addressed heap makes the ownership claim about parameter buffers
expressible: malloc is a bump allocator handing out fresh addresses
above everything allocated so far, memcpy copies a byte range.
Callback references are abstract nonzero identifiers (0 is NULL). -/

structure Heap where
  mem : Nat → Nat
  nextFree : Nat

/-- The byte contents of the region [p, p + len). -/
def readBytes (h : Heap) (p len : Nat) : List Nat :=
  (List.range len).map fun i => h.mem (p + i)

/-- memcpy(dst, src, len). -/
def memcpyH (h : Heap) (dst src len : Nat) : Heap :=
  { h with mem := fun a => if dst ≤ a ∧ a < dst + len then h.mem (src + (a - dst)) else h.mem a }

/-- malloc(len): a fresh region disjoint from every live one. -/
def mallocH (h : Heap) (len : Nat) : Nat × Heap :=
  (h.nextFree, { h with nextFree := h.nextFree + len })

/-- BT_APP_SIG_WORK_DISPATCH of bt_app_core.h (header not in src; the
only signal value bt_app_core.c uses). -/
def BT_APP_SIG_WORK_DISPATCH : Nat := 1

/-- bt_app_msg_t: sig, event, callback reference, owned parameter
buffer pointer (none is the NULL param of a message without
parameters). -/
structure BtAppMsg where
  sig : Nat
  event : Nat
  cb : Nat
  param : Option Nat
  deriving DecidableEq, Repr

/-- Queue depth of bt_app_task_queue (xQueueCreate(10, ...),
bt_app_core.c line 154). -/
def BT_APP_TASK_QUEUE_LEN : Nat := 10

/-- bt_app_send_msg, bt_app_core.c lines 110-121: bounded enqueue that
fails (after the short timeout) when the queue stays full. -/
def bt_app_send_msg (q : List BtAppMsg) (msg : BtAppMsg) : Bool × List BtAppMsg :=
  if q.length < BT_APP_TASK_QUEUE_LEN then (true, q ++ [msg]) else (false, q)

/-- bt_app_work_dispatch, bt_app_core.c lines 84-108.  param_len is the
C int argument restricted to its meaningful nonnegative range; the copy
callback is the caller-supplied deep-copy hook p_copy_cback, given the
heap after the flat copy and the two pointers. -/
def bt_app_work_dispatch (h : Heap) (q : List BtAppMsg) (p_cback : Nat) (event : Nat)
    (p_params : Option Nat) (param_len : Nat)
    (p_copy_cback : Option (Heap → Nat → Nat → Heap)) :
    Bool × Heap × List BtAppMsg :=
  let msg : BtAppMsg :=
    { sig := BT_APP_SIG_WORK_DISPATCH, event := event, cb := p_cback, param := none }
  if param_len = 0 then
    let s := bt_app_send_msg q msg
    (s.1, h, s.2)
  else
    match p_params with
    | some src =>
      if param_len > 0 then
        let m := mallocH h param_len
        let h2 := memcpyH m.2 m.1 src param_len
        let h3 :=
          match p_copy_cback with
          | some f => f h2 m.1 src
          | none => h2
        let s := bt_app_send_msg q { msg with param := some m.1 }
        (s.1, h3, s.2)
      else
        (false, h, q)
    | none => (false, h, q)

/-- bt_app_work_dispatched, bt_app_core.c lines 123-128: invoke
msg->cb(msg->event, msg->param) when the callback is non-NULL.  The
invocation is returned as (callback reference, event, parameter
pointer). -/
def bt_app_work_dispatched (msg : BtAppMsg) : Option (Nat × Nat × Option Nat) :=
  if msg.cb ≠ 0 then some (msg.cb, msg.event, msg.param) else none

/-- One iteration of bt_app_task_handler, bt_app_core.c lines 130-150:
receive the oldest message, dispatch it when sig matches, then free the
parameter buffer.  Returns the callback invocation performed (if any)
and the remaining queue. -/
def bt_app_task_handler_step (q : List BtAppMsg) :
    Option (Nat × Nat × Option Nat) × List BtAppMsg :=
  match q with
  | [] => (none, [])
  | msg :: rest =>
    if msg.sig = BT_APP_SIG_WORK_DISPATCH then
      (bt_app_work_dispatched msg, rest)
    else
      (none, rest)

/-- Total byte view of the sine table, for stating the cyclic
continuation (in-bounds indices agree with sine_byte?). -/
def sine_byte (i : Nat) : Nat :=
  (sine_byte? i).getD 0

/-- The per-codec block byte count the generation task uses:
WBS_PCM_INPUT_DATA_SIZE (240) in mSBC mode, PCM_INPUT_DATA_SIZE (120)
in CVSD mode. -/
def codec_bytes_per_block (a : EspHfAudioState) : Nat :=
  match a with
  | .connectedMsbc => WBS_PCM_INPUT_DATA_SIZE
  | .connected => PCM_INPUT_DATA_SIZE

/-! Theorems.  Shared helper lemmas come first, then one theorem per
claim (with its witness or counterexample). -/

theorem frameOf_update_snoc (buf : Nat → Char) (cnt : Nat) (c : Char) :
    frameOf (Function.update buf cnt c) (cnt + 1) = frameOf buf cnt ++ [c] := by
  simp only [frameOf, List.range_succ, List.map_append, List.map_cons, List.map_nil,
    Function.update_same]
  congr 1
  apply List.map_congr_left
  intro i hi
  exact Function.update_noteq (by simp at hi; omega) _ _

theorem frameOf_update_of_le (buf : Nat → Char) (k n : Nat) (c : Char) (h : n ≤ k) :
    frameOf (Function.update buf k c) n = frameOf buf n := by
  apply List.map_congr_left
  intro i hi
  exact Function.update_noteq (by simp at hi; omega) _ _

theorem payl_run (maxLen : Nat) (payload : List Char) (prs : HfMsgPrsCb)
    (hst : prs.state = .payl) (ht : prs.t_idx = 0)
    (hp : ∀ c ∈ payload, c ≠ ';')
    (hlen : prs.cnt + payload.length + 1 ≤ maxLen) :
    (hf_msg_parse_stream maxLen (payload ++ [';']) prs).1 =
      List.replicate payload.length .inProgress ++ [.ok] ∧
    (hf_msg_parse_stream maxLen (payload ++ [';']) prs).2.2 =
      [(frameOf prs.buf prs.cnt ++ payload ++ [';'], prs.cnt + payload.length + 1)] ∧
    (hf_msg_parse_stream maxLen (payload ++ [';']) prs).2.1.state = .idle ∧
    (hf_msg_parse_stream maxLen (payload ++ [';']) prs).2.1.cnt = 0 ∧
    (hf_msg_parse_stream maxLen (payload ++ [';']) prs).2.1.h_idx = 0 ∧
    (hf_msg_parse_stream maxLen (payload ++ [';']) prs).2.1.t_idx = 0 := by
  induction payload generalizing prs with
  | nil =>
    rcases prs with ⟨st, buf, cnt, hidx, tidx⟩
    simp only at hst ht
    subst hst ht
    simp only [List.nil_append, hf_msg_parse_stream, hf_msg_parse, hf_msg_tail,
      hf_msg_parser_reset_state, HF_MSG_TAIL_LEN]
    simp [frameOf_update_of_le, frameOf_update_snoc]
  | cons c rest ih =>
    rcases prs with ⟨st, buf, cnt, hidx, tidx⟩
    simp only at hst ht hlen
    subst hst ht
    have hc : c ≠ ';' := hp c (by simp)
    have hov : ¬ (cnt + 1 ≥ maxLen) := by simp at hlen; omega
    simp only [List.cons_append, hf_msg_parse_stream, hf_msg_parse, hf_msg_tail,
      HF_MSG_TAIL_LEN]
    rw [if_neg (by simpa using hc)]
    rw [if_neg hov]
    have ih2 := ih ⟨.payl, Function.update buf cnt c, cnt + 1, hidx, 0⟩
      rfl rfl (fun x hx => hp x (by simp [hx])) (by simp at hlen ⊢; omega)
    simp only at ih2
    obtain ⟨e1, e2, e3, e4, e5, e6⟩ := ih2
    refine ⟨?_, ?_, e3, e4, e5, e6⟩
    · simp [e1, List.replicate_succ]
    · simp only [Option.toList_none, List.nil_append, List.append_eq]
      rw [e2, frameOf_update_snoc]
      simp only [List.cons.injEq, Prod.mk.injEq, and_true]
      exact ⟨by simp, by simp only [List.length_cons]; omega⟩

theorem hf_msg_parse_stream_append (maxLen : Nat) (a b : List Char) (prs : HfMsgPrsCb) :
    (hf_msg_parse_stream maxLen (a ++ b) prs).1 =
      (hf_msg_parse_stream maxLen a prs).1 ++
        (hf_msg_parse_stream maxLen b (hf_msg_parse_stream maxLen a prs).2.1).1 ∧
    (hf_msg_parse_stream maxLen (a ++ b) prs).2.1 =
      (hf_msg_parse_stream maxLen b (hf_msg_parse_stream maxLen a prs).2.1).2.1 ∧
    (hf_msg_parse_stream maxLen (a ++ b) prs).2.2 =
      (hf_msg_parse_stream maxLen a prs).2.2 ++
        (hf_msg_parse_stream maxLen b (hf_msg_parse_stream maxLen a prs).2.1).2.2 := by
  induction a generalizing prs with
  | nil => simp [hf_msg_parse_stream]
  | cons c rest ih =>
    simp only [List.cons_append, hf_msg_parse_stream]
    have ih2 := ih (hf_msg_parse maxLen c prs).2.1
    refine ⟨?_, ih2.2.1, ?_⟩
    · simp [ih2.1]
    · simp [ih2.2.2, List.append_assoc]

theorem idle_frame_run (maxLen : Nat) (payload : List Char) (prs : HfMsgPrsCb)
    (hst : prs.state = .idle)
    (hp : ∀ c ∈ payload, c ≠ ';')
    (hlen : payload.length + 4 ≤ maxLen) :
    (hf_msg_parse_stream maxLen ('h' :: 'f' :: ' ' :: (payload ++ [';'])) prs).2.2 =
      [('h' :: 'f' :: ' ' :: (payload ++ [';']), payload.length + 4)] ∧
    (hf_msg_parse_stream maxLen ('h' :: 'f' :: ' ' :: (payload ++ [';'])) prs).2.1.state = .idle ∧
    (hf_msg_parse_stream maxLen ('h' :: 'f' :: ' ' :: (payload ++ [';'])) prs).2.1.cnt = 0 ∧
    (hf_msg_parse_stream maxLen ('h' :: 'f' :: ' ' :: (payload ++ [';'])) prs).2.1.h_idx = 0 ∧
    (hf_msg_parse_stream maxLen ('h' :: 'f' :: ' ' :: (payload ++ [';'])) prs).2.1.t_idx = 0 := by
  rcases prs with ⟨st, buf, cnt, hidx, tidx⟩
  simp only at hst
  subst hst
  simp only [hf_msg_parse_stream, hf_msg_parse, hf_msg_hdr, HF_MSG_HDR_LEN,
    List.getD, List.get?, Option.getD]
  norm_num
  have hrun := payl_run maxLen payload
    ⟨.payl, Function.update (Function.update (Function.update buf 0 'h') 1 'f') 2 ' ', 3, 3, 0⟩
    rfl rfl hp (by simp; omega)
  simp only at hrun
  obtain ⟨e1, e2, e3, e4, e5, e6⟩ := hrun
  refine ⟨?_, e3, e4, e5, e6⟩
  rw [e2]
  have hfr : frameOf (Function.update (Function.update (Function.update buf 0 'h') 1 'f') 2 ' ') 3
      = ['h', 'f', ' '] := by
    simp [frameOf, List.range_succ, Function.update]
  rw [hfr]
  simp only [List.cons.injEq, Prod.mk.injEq, List.cons_append, List.nil_append, and_true]
  constructor
  · trivial
  · omega

/-- C1: feeding the seven bytes of "hf con;" one at a time from IDLE
with zeroed counters yields exactly one callback invocation, with the
frame "hf con;" (NUL-terminated in the buffer) and length 7; the call
consuming the final terminator returns Ok, every earlier call returns
InProgress, and the parser ends in IDLE with all counters zero.  Stated
for every buffer capacity the frame fits in (HF_MSG_LEN_MAX is in a
header outside src). -/
theorem c1_feed_hf_con (maxLen : Nat) (h : 7 ≤ maxLen) :
    (hf_msg_parse_stream maxLen ("hf con;".toList) initPrs).1 =
      [.inProgress, .inProgress, .inProgress, .inProgress, .inProgress, .inProgress, .ok] ∧
    (hf_msg_parse_stream maxLen ("hf con;".toList) initPrs).2.2 = [("hf con;".toList, 7)] ∧
    (hf_msg_parse_stream maxLen ("hf con;".toList) initPrs).2.1.state = .idle ∧
    (hf_msg_parse_stream maxLen ("hf con;".toList) initPrs).2.1.cnt = 0 ∧
    (hf_msg_parse_stream maxLen ("hf con;".toList) initPrs).2.1.h_idx = 0 ∧
    (hf_msg_parse_stream maxLen ("hf con;".toList) initPrs).2.1.t_idx = 0 := by
  have h4 : ¬ (4 ≥ maxLen) := by omega
  have h5 : ¬ (5 ≥ maxLen) := by omega
  have h6 : ¬ (6 ≥ maxLen) := by omega
  simp [hf_msg_parse_stream, hf_msg_parse, hf_msg_parser_reset_state, initPrs,
    hf_msg_hdr, hf_msg_tail, HF_MSG_HDR_LEN, HF_MSG_TAIL_LEN, String.toList,
    h4, h5, h6, frameOf, List.range_succ, Function.update]

theorem c1_feed_hf_con_witness :
    7 ≤ 128 ∧
    ((hf_msg_parse_stream 128 ("hf con;".toList) initPrs).1 =
      [.inProgress, .inProgress, .inProgress, .inProgress, .inProgress, .inProgress, .ok] ∧
    (hf_msg_parse_stream 128 ("hf con;".toList) initPrs).2.2 = [("hf con;".toList, 7)] ∧
    (hf_msg_parse_stream 128 ("hf con;".toList) initPrs).2.1.state = .idle ∧
    (hf_msg_parse_stream 128 ("hf con;".toList) initPrs).2.1.cnt = 0 ∧
    (hf_msg_parse_stream 128 ("hf con;".toList) initPrs).2.1.h_idx = 0 ∧
    (hf_msg_parse_stream 128 ("hf con;".toList) initPrs).2.1.t_idx = 0) :=
  ⟨by decide, c1_feed_hf_con 128 (by decide)⟩

/-- C2: for every parser state and input byte, a call returning Ok,
HeaderSyncFailed or BufferOverflow leaves the parser in IDLE with cnt,
h_idx and t_idx zero (hf_msg_parser_reset_state ran), and a call
returning HeaderUndetected leaves every field of the control block
unchanged (the registered callback, stored outside this structure, is
never written by hf_msg_parse either). -/
theorem c2_terminal_resets (maxLen : Nat) (c : Char) (prs : HfMsgPrsCb) :
    (((hf_msg_parse maxLen c prs).1 = .ok ∨
      (hf_msg_parse maxLen c prs).1 = .hdrSyncFailed ∨
      (hf_msg_parse maxLen c prs).1 = .bufOverflow) →
        (hf_msg_parse maxLen c prs).2.1.state = .idle ∧
        (hf_msg_parse maxLen c prs).2.1.cnt = 0 ∧
        (hf_msg_parse maxLen c prs).2.1.h_idx = 0 ∧
        (hf_msg_parse maxLen c prs).2.1.t_idx = 0) ∧
    ((hf_msg_parse maxLen c prs).1 = .hdrUndetected →
      (hf_msg_parse maxLen c prs).2.1 = prs) := by
  rcases prs with ⟨st, buf, cnt, hidx, tidx⟩
  cases st <;>
    simp only [hf_msg_parse, hf_msg_parser_reset_state] <;>
    split <;> (try split) <;> (try split) <;>
    simp_all

theorem c2_terminal_resets_witness :
    ((hf_msg_parse 128 'x' ⟨.hdr, fun _ => '\x00', 1, 1, 0⟩).1 = .hdrSyncFailed ∧
     (hf_msg_parse 128 'x' ⟨.hdr, fun _ => '\x00', 1, 1, 0⟩).2.1.state = .idle ∧
     (hf_msg_parse 128 'x' ⟨.hdr, fun _ => '\x00', 1, 1, 0⟩).2.1.cnt = 0 ∧
     (hf_msg_parse 128 'x' ⟨.hdr, fun _ => '\x00', 1, 1, 0⟩).2.1.h_idx = 0 ∧
     (hf_msg_parse 128 'x' ⟨.hdr, fun _ => '\x00', 1, 1, 0⟩).2.1.t_idx = 0) ∧
    ((hf_msg_parse 128 'q' initPrs).1 = .hdrUndetected ∧
     (hf_msg_parse 128 'q' initPrs).2.1 = initPrs) :=
  ⟨⟨rfl, (c2_terminal_resets 128 'x' ⟨.hdr, fun _ => '\x00', 1, 1, 0⟩).1 (Or.inr (Or.inl rfl))⟩,
   ⟨rfl, (c2_terminal_resets 128 'q' initPrs).2 rfl⟩⟩

/-- C3, counterexample: the stream "hhf con;" is a malformed prefix "h"
followed by the complete valid frame "hf con;", whose header "hf "
starts at the stream's next header occurrence (index 1); yet the run
performs no callback invocation at all, because the second 'h' --- the
byte that causes HeaderSyncFailed --- is consumed by the failing call
and never reprocessed, so the genuine header is missed. -/
theorem c3_sync_fail_byte_not_reprocessed :
    (hf_msg_parse_stream 128 ("hhf con;".toList) initPrs).2.2 = [] ∧
    (hf_msg_parse_stream 128 ("hhf con;".toList) initPrs).1 =
      [.inProgress, .hdrSyncFailed, .hdrUndetected, .hdrUndetected, .hdrUndetected,
       .hdrUndetected, .hdrUndetected, .hdrUndetected] :=
  ⟨rfl, rfl⟩

/-- C3, amended: for every prefix after whose processing the parser is
back in the IDLE state, feeding the prefix followed by a complete valid
frame (header "hf ", a tail-free payload that fits the buffer, tail
';') performs exactly the callback invocations of the prefix plus one
more with that full frame, and the parser ends in IDLE.  Recovery is
not guaranteed for a prefix that leaves the parser mid-header or
mid-payload (see the counterexample). -/
theorem c3_resync_from_idle (maxLen : Nat) (pre payload : List Char)
    (hidle : (hf_msg_parse_stream maxLen pre initPrs).2.1.state = .idle)
    (hp : ∀ c ∈ payload, c ≠ ';')
    (hlen : payload.length + 4 ≤ maxLen) :
    (hf_msg_parse_stream maxLen (pre ++ ('h' :: 'f' :: ' ' :: (payload ++ [';']))) initPrs).2.2 =
      (hf_msg_parse_stream maxLen pre initPrs).2.2 ++
        [('h' :: 'f' :: ' ' :: (payload ++ [';']), payload.length + 4)] ∧
    (hf_msg_parse_stream maxLen (pre ++ ('h' :: 'f' :: ' ' :: (payload ++ [';']))) initPrs).2.1.state
      = .idle := by
  obtain ⟨-, hmid, hinv⟩ :=
    hf_msg_parse_stream_append maxLen pre ('h' :: 'f' :: ' ' :: (payload ++ [';'])) initPrs
  have hfr := idle_frame_run maxLen payload
    (hf_msg_parse_stream maxLen pre initPrs).2.1 hidle hp hlen
  exact ⟨by rw [hinv, hfr.1], by rw [hmid]; exact hfr.2.1⟩

theorem c3_resync_from_idle_witness :
    ((hf_msg_parse_stream 128 ("xy".toList) initPrs).2.1.state = .idle ∧
     (∀ c ∈ ("con".toList), c ≠ ';') ∧ ("con".toList).length + 4 ≤ 128) ∧
    ((hf_msg_parse_stream 128 (("xy".toList) ++ ('h' :: 'f' :: ' ' :: (("con".toList) ++ [';'])))
        initPrs).2.2 =
      (hf_msg_parse_stream 128 ("xy".toList) initPrs).2.2 ++
        [('h' :: 'f' :: ' ' :: (("con".toList) ++ [';']), ("con".toList).length + 4)] ∧
     (hf_msg_parse_stream 128 (("xy".toList) ++ ('h' :: 'f' :: ' ' :: (("con".toList) ++ [';'])))
        initPrs).2.1.state = .idle) :=
  ⟨⟨rfl, by decide, by decide⟩,
   c3_resync_from_idle 128 ("xy".toList) ("con".toList) rfl (by decide) (by decide)⟩

/-- C4: on a wake of the generation task at clock now, the number of
synthesized bytes is floor(elapsed/7500) * bytes_per_block with
bytes_per_block 240 in mSBC mode and 120 in CVSD mode; the
last-production timestamp advances by exactly floor(elapsed/7500)*7500
microseconds (the fractional remainder stays); and when elapsed is
below one block duration nothing is generated and nothing is pushed
into the ring buffer. -/
theorem c4_wake_block_math (st : SendTaskState) (rb : RingBuf) (now : Nat)
    (hmono : st.s_last_enter_time ≤ now) :
    codec_bytes_per_block .connectedMsbc = 240 ∧
    codec_bytes_per_block .connected = 120 ∧
    (bt_app_send_data_wake st rb now).2.2.1 =
      (now - st.s_last_enter_time) / PCM_BLOCK_DURATION_US *
        codec_bytes_per_block st.s_audio_code ∧
    (bt_app_send_data_wake st rb now).1.s_last_enter_time =
      st.s_last_enter_time +
        (now - st.s_last_enter_time) / PCM_BLOCK_DURATION_US * PCM_BLOCK_DURATION_US ∧
    (now - st.s_last_enter_time < PCM_BLOCK_DURATION_US →
      (bt_app_send_data_wake st rb now).2.2.1 = 0 ∧
      (bt_app_send_data_wake st rb now).2.1 = rb) := by
  refine ⟨rfl, rfl, ?_⟩
  rcases st with ⟨last, code, sidx⟩
  simp only at hmono ⊢
  cases code
  case connected =>
    by_cases hz : (now - last) / PCM_BLOCK_DURATION_US = 0
    · simp [bt_app_send_data_wake, codec_bytes_per_block, hz]
    · have hz2 : ¬ ((now - last) / PCM_BLOCK_DURATION_US * PCM_INPUT_DATA_SIZE = 0) := by
        simp only [Nat.mul_eq_zero]
        push_neg
        exact ⟨hz, by decide⟩
      have hc : (now - last) / PCM_BLOCK_DURATION_US * PCM_INPUT_DATA_SIZE / PCM_INPUT_DATA_SIZE
          = (now - last) / PCM_BLOCK_DURATION_US :=
        Nat.mul_div_cancel _ (by decide)
      have himp : ¬ (now - last < PCM_BLOCK_DURATION_US) := fun hlt =>
        hz (Nat.div_eq_of_lt hlt)
      simp only [bt_app_send_data_wake, codec_bytes_per_block]
      rw [if_neg hz2]
      cases hcr : bt_app_hf_create_audio_data sidx
          ((now - last) / PCM_BLOCK_DURATION_US * PCM_INPUT_DATA_SIZE) with
      | none => exact ⟨rfl, by simp [hc], fun hlt => absurd hlt himp⟩
      | some r => exact ⟨rfl, by simp [hc], fun hlt => absurd hlt himp⟩
  case connectedMsbc =>
    by_cases hz : (now - last) / PCM_BLOCK_DURATION_US = 0
    · simp [bt_app_send_data_wake, codec_bytes_per_block, hz]
    · have hz2 : ¬ ((now - last) / PCM_BLOCK_DURATION_US * WBS_PCM_INPUT_DATA_SIZE = 0) := by
        simp only [Nat.mul_eq_zero]
        push_neg
        exact ⟨hz, by decide⟩
      have hc : (now - last) / PCM_BLOCK_DURATION_US * WBS_PCM_INPUT_DATA_SIZE /
            WBS_PCM_INPUT_DATA_SIZE = (now - last) / PCM_BLOCK_DURATION_US :=
        Nat.mul_div_cancel _ (by decide)
      have himp : ¬ (now - last < PCM_BLOCK_DURATION_US) := fun hlt =>
        hz (Nat.div_eq_of_lt hlt)
      simp only [bt_app_send_data_wake, codec_bytes_per_block]
      rw [if_neg hz2]
      cases hcr : bt_app_hf_create_audio_data sidx
          ((now - last) / PCM_BLOCK_DURATION_US * WBS_PCM_INPUT_DATA_SIZE) with
      | none => exact ⟨rfl, by simp [hc], fun hlt => absurd hlt himp⟩
      | some r => exact ⟨rfl, by simp [hc], fun hlt => absurd hlt himp⟩

theorem c4_wake_block_math_witness :
    (⟨0, .connected, 0⟩ : SendTaskState).s_last_enter_time ≤ 20000 ∧
    (codec_bytes_per_block .connectedMsbc = 240 ∧
     codec_bytes_per_block .connected = 120 ∧
     (bt_app_send_data_wake ⟨0, .connected, 0⟩ ⟨3600, 0, []⟩ 20000).2.2.1 =
       (20000 - (⟨0, .connected, 0⟩ : SendTaskState).s_last_enter_time) / PCM_BLOCK_DURATION_US *
         codec_bytes_per_block (⟨0, .connected, 0⟩ : SendTaskState).s_audio_code ∧
     (bt_app_send_data_wake ⟨0, .connected, 0⟩ ⟨3600, 0, []⟩ 20000).1.s_last_enter_time =
       (⟨0, .connected, 0⟩ : SendTaskState).s_last_enter_time +
         (20000 - (⟨0, .connected, 0⟩ : SendTaskState).s_last_enter_time) / PCM_BLOCK_DURATION_US *
           PCM_BLOCK_DURATION_US ∧
     (20000 - (⟨0, .connected, 0⟩ : SendTaskState).s_last_enter_time < PCM_BLOCK_DURATION_US →
       (bt_app_send_data_wake ⟨0, .connected, 0⟩ ⟨3600, 0, []⟩ 20000).2.2.1 = 0 ∧
       (bt_app_send_data_wake ⟨0, .connected, 0⟩ ⟨3600, 0, []⟩ 20000).2.1 = ⟨3600, 0, []⟩)) :=
  ⟨by decide, c4_wake_block_math ⟨0, .connected, 0⟩ ⟨3600, 0, []⟩ 20000 (by decide)⟩

/-- C5, counterexample: a wrapped ring buffer state (capacity 3600,
oldest byte at physical position 3599, three bytes stored) with a pull
request of 2 bytes: the occupancy gate passes (3 >= 2), the callback
returns 2, but only 1 byte --- the contiguous run up to the end of the
storage --- is copied to the caller and removed, refuting "removes
exactly sz bytes, copies exactly those sz bytes" as stated.  (The C
memcpys item_size, the size xRingbufferReceiveUpTo actually returned,
yet still returns sz.) -/
theorem c5_wrapped_pull_short_copy :
    2 ≤ ((⟨3600, 3599, [9, 8, 7]⟩ : RingBuf)).data.length ∧
    (bt_app_hf_outgoing_cb ⟨3600, 3599, [9, 8, 7]⟩ 2).1 = 2 ∧
    (bt_app_hf_outgoing_cb ⟨3600, 3599, [9, 8, 7]⟩ 2).2.1 = [9] ∧
    (bt_app_hf_outgoing_cb ⟨3600, 3599, [9, 8, 7]⟩ 2).2.1.length = 1 ∧
    (bt_app_hf_outgoing_cb ⟨3600, 3599, [9, 8, 7]⟩ 2).2.2.data = [8, 7] := by
  decide

/-- C5, amended: when the ring buffer occupancy is below the requested
sz the pull callback returns 0, copies nothing and leaves the buffer
untouched; otherwise it returns sz and copies and removes the oldest
min(sz, capacity - read position) bytes --- the contiguous run a single
ReceiveUpTo on a byte buffer can yield --- which is exactly sz bytes
precisely when the stored data does not wrap within the first sz
bytes. -/
theorem c5_pull_gate_and_contiguous_copy (rb : RingBuf) (sz : Nat) :
    (rb.data.length < sz →
      (bt_app_hf_outgoing_cb rb sz).1 = 0 ∧
      (bt_app_hf_outgoing_cb rb sz).2.1 = [] ∧
      (bt_app_hf_outgoing_cb rb sz).2.2 = rb) ∧
    (sz ≤ rb.data.length →
      (bt_app_hf_outgoing_cb rb sz).1 = sz ∧
      (bt_app_hf_outgoing_cb rb sz).2.1 = rb.data.take (min sz (rb.capacity - rb.read_pos)) ∧
      (bt_app_hf_outgoing_cb rb sz).2.2.data = rb.data.drop (min sz (rb.capacity - rb.read_pos)) ∧
      (bt_app_hf_outgoing_cb rb sz).2.1 ++ (bt_app_hf_outgoing_cb rb sz).2.2.data = rb.data ∧
      (sz ≤ rb.capacity - rb.read_pos →
        (bt_app_hf_outgoing_cb rb sz).2.1 = rb.data.take sz ∧
        (bt_app_hf_outgoing_cb rb sz).2.1.length = sz ∧
        (bt_app_hf_outgoing_cb rb sz).2.2.data = rb.data.drop sz ∧
        (bt_app_hf_outgoing_cb rb sz).2.2.data.length = rb.data.length - sz)) := by
  constructor
  · intro hlt
    rw [bt_app_hf_outgoing_cb, if_neg (by omega)]
    exact ⟨rfl, rfl, rfl⟩
  · intro hge
    rw [bt_app_hf_outgoing_cb, if_pos (by omega)]
    simp only [xRingbufferReceiveUpTo, Nat.min_eq_left hge]
    refine ⟨trivial, trivial, trivial, by simp [List.take_append_drop], ?_⟩
    intro hcontig
    rw [Nat.min_eq_left hcontig]
    refine ⟨rfl, ?_, rfl, ?_⟩
    · simp [List.length_take]; omega
    · simp [List.length_drop]

theorem c5_pull_gate_and_contiguous_copy_witness :
    (((⟨3600, 0, [1, 2, 3]⟩ : RingBuf)).data.length < 4 ∧
     (bt_app_hf_outgoing_cb ⟨3600, 0, [1, 2, 3]⟩ 4).1 = 0 ∧
     (bt_app_hf_outgoing_cb ⟨3600, 0, [1, 2, 3]⟩ 4).2.1 = [] ∧
     (bt_app_hf_outgoing_cb ⟨3600, 0, [1, 2, 3]⟩ 4).2.2 = ⟨3600, 0, [1, 2, 3]⟩) ∧
    (2 ≤ ((⟨3600, 0, [1, 2, 3]⟩ : RingBuf)).data.length ∧
     (bt_app_hf_outgoing_cb ⟨3600, 0, [1, 2, 3]⟩ 2).1 = 2 ∧
     (bt_app_hf_outgoing_cb ⟨3600, 0, [1, 2, 3]⟩ 2).2.1 = [1, 2] ∧
     (bt_app_hf_outgoing_cb ⟨3600, 0, [1, 2, 3]⟩ 2).2.1.length = 2 ∧
     (bt_app_hf_outgoing_cb ⟨3600, 0, [1, 2, 3]⟩ 2).2.2.data = [3]) :=
  ⟨⟨by decide, (c5_pull_gate_and_contiguous_copy ⟨3600, 0, [1, 2, 3]⟩ 4).1 (by decide)⟩,
   ⟨by decide,
    ((c5_pull_gate_and_contiguous_copy ⟨3600, 0, [1, 2, 3]⟩ 2).2 (by decide)).1,
    (((c5_pull_gate_and_contiguous_copy ⟨3600, 0, [1, 2, 3]⟩ 2).2 (by decide)).2.2.2.2
      (by decide)).1,
    (((c5_pull_gate_and_contiguous_copy ⟨3600, 0, [1, 2, 3]⟩ 2).2 (by decide)).2.2.2.2
      (by decide)).2.1,
    (((c5_pull_gate_and_contiguous_copy ⟨3600, 0, [1, 2, 3]⟩ 2).2 (by decide)).2.2.2.2
      (by decide)).2.2.1⟩⟩

/-- C10: bt_app_hf_create_audio_data keeps its persistent read index
inside [0, 200): entering with an in-range index, every access into the
200-byte sine table is in bounds (the run never yields none), all sz
requested bytes are produced as the cyclic continuation of the byte
table from the entry index, and the exit index is again in [0, 200). -/
theorem c10_audio_data_cyclic (index sz : Nat) (h : index < TABLE_SIZE_BYTE) :
    ∃ out fin, bt_app_hf_create_audio_data index sz = some (out, fin) ∧
      out.length = sz ∧
      out = (List.range sz).map (fun i => sine_byte ((index + i) % TABLE_SIZE_BYTE)) ∧
      fin = (index + sz) % TABLE_SIZE_BYTE ∧
      fin < TABLE_SIZE_BYTE := by
  induction sz generalizing index with
  | zero =>
    refine ⟨[], index, rfl, rfl, by simp, ?_, h⟩
    simp [Nat.mod_eq_of_lt h]
  | succ n ih =>
    have hb : sine_byte? index = some (sine_byte index) := by
      rw [sine_byte]
      rw [sine_byte?, if_pos h]
      simp [sine_byte?, if_pos h]
    have hidx2 : (if index + 1 ≥ TABLE_SIZE_BYTE then index + 1 - TABLE_SIZE_BYTE else index + 1)
        = (index + 1) % TABLE_SIZE_BYTE := by
      rw [TABLE_SIZE_BYTE] at h ⊢
      split
      · omega
      · omega
    obtain ⟨out, fin, he, hlen, hout, hfin, hfinlt⟩ :=
      ih ((index + 1) % TABLE_SIZE_BYTE) (Nat.mod_lt _ (by rw [TABLE_SIZE_BYTE]; omega))
    refine ⟨sine_byte index :: out, fin, ?_, by simp [hlen], ?_, ?_, hfinlt⟩
    · rw [bt_app_hf_create_audio_data, hb]
      simp only [hidx2, he]
    · rw [hout, List.range_succ_eq_map]
      simp only [List.map_cons, List.map_map]
      congr 1
      · simp [Nat.mod_eq_of_lt h]
      · apply List.map_congr_left
        intro i hi
        simp only [Function.comp]
        rw [Nat.mod_add_mod]
        have hz : index + 1 + i = index + (i + 1) := by omega
        rw [hz]
    · rw [hfin, Nat.mod_add_mod]
      have hz : index + 1 + n = index + (n + 1) := by omega
      rw [hz]

theorem c10_audio_data_cyclic_witness :
    (198 : Nat) < TABLE_SIZE_BYTE ∧
    (∃ out fin, bt_app_hf_create_audio_data 198 5 = some (out, fin) ∧
      out.length = 5 ∧
      out = (List.range 5).map (fun i => sine_byte ((198 + i) % TABLE_SIZE_BYTE)) ∧
      fin = (198 + 5) % TABLE_SIZE_BYTE ∧
      fin < TABLE_SIZE_BYTE) :=
  ⟨by decide, c10_audio_data_cyclic 198 5 (by decide)⟩

/-- C6: a successful dispatch with param_len > 0 and a non-NULL
parameter pointer copies the param_len source bytes into a freshly
malloc-ed buffer before enqueueing; the fresh buffer lies outside every
previously allocated region (in particular the caller's buffer), so the
buffer the worker passes to the callback holds exactly the bytes the
source held at dispatch time, whatever is later written inside the
caller's buffer region. -/
theorem c6_dispatch_param_snapshot (h : Heap) (cb event src param_len : Nat)
    (hcb : cb ≠ 0)
    (hlen : 0 < param_len)
    (hsrc : src + param_len ≤ h.nextFree) :
    (bt_app_work_dispatch h [] cb event (some src) param_len none).1 = true ∧
    (bt_app_work_dispatch h [] cb event (some src) param_len none).2.2 =
      [⟨BT_APP_SIG_WORK_DISPATCH, event, cb, some h.nextFree⟩] ∧
    readBytes (bt_app_work_dispatch h [] cb event (some src) param_len none).2.1
        h.nextFree param_len = readBytes h src param_len ∧
    (bt_app_task_handler_step
        (bt_app_work_dispatch h [] cb event (some src) param_len none).2.2).1 =
      some (cb, event, some h.nextFree) ∧
    ∀ h2 : Heap,
      (∀ a, ¬ (src ≤ a ∧ a < src + param_len) →
        h2.mem a = (bt_app_work_dispatch h [] cb event (some src) param_len none).2.1.mem a) →
      readBytes h2 h.nextFree param_len = readBytes h src param_len := by
  have hd : bt_app_work_dispatch h [] cb event (some src) param_len none =
      (true, memcpyH { h with nextFree := h.nextFree + param_len } h.nextFree src param_len,
        [⟨BT_APP_SIG_WORK_DISPATCH, event, cb, some h.nextFree⟩]) := by
    rw [bt_app_work_dispatch, if_neg (by omega)]
    simp only [mallocH]
    rw [if_pos hlen]
    rw [bt_app_send_msg, if_pos (by simp [BT_APP_TASK_QUEUE_LEN])]
    rfl
  rw [hd]
  have hsnap : readBytes (memcpyH { h with nextFree := h.nextFree + param_len }
      h.nextFree src param_len) h.nextFree param_len = readBytes h src param_len := by
    apply List.map_congr_left
    intro i hi
    simp only [List.mem_range] at hi
    simp only [memcpyH]
    rw [if_pos (by omega)]
    congr 1
    omega
  refine ⟨rfl, rfl, hsnap, ?_, ?_⟩
  · simp [bt_app_task_handler_step, bt_app_work_dispatched, hcb]
  · intro h2 hagree
    rw [← hsnap]
    apply List.map_congr_left
    intro i hi
    simp only [List.mem_range] at hi
    exact hagree (h.nextFree + i) (by omega)

theorem c6_dispatch_param_snapshot_witness :
    ((1 : Nat) ≠ 0 ∧ (0 : Nat) < 2 ∧ 0 + 2 ≤ (⟨fun a => a + 10, 2⟩ : Heap).nextFree) ∧
    ((bt_app_work_dispatch ⟨fun a => a + 10, 2⟩ [] 1 5 (some 0) 2 none).1 = true ∧
     (bt_app_work_dispatch ⟨fun a => a + 10, 2⟩ [] 1 5 (some 0) 2 none).2.2 =
       [⟨BT_APP_SIG_WORK_DISPATCH, 5, 1, some (⟨fun a => a + 10, 2⟩ : Heap).nextFree⟩] ∧
     readBytes (bt_app_work_dispatch ⟨fun a => a + 10, 2⟩ [] 1 5 (some 0) 2 none).2.1
         (⟨fun a => a + 10, 2⟩ : Heap).nextFree 2 = readBytes ⟨fun a => a + 10, 2⟩ 0 2 ∧
     (bt_app_task_handler_step
         (bt_app_work_dispatch ⟨fun a => a + 10, 2⟩ [] 1 5 (some 0) 2 none).2.2).1 =
       some (1, 5, some (⟨fun a => a + 10, 2⟩ : Heap).nextFree) ∧
     ∀ h2 : Heap,
       (∀ a, ¬ (0 ≤ a ∧ a < 0 + 2) →
         h2.mem a = (bt_app_work_dispatch ⟨fun a => a + 10, 2⟩ [] 1 5 (some 0) 2 none).2.1.mem a) →
       readBytes h2 (⟨fun a => a + 10, 2⟩ : Heap).nextFree 2 =
         readBytes ⟨fun a => a + 10, 2⟩ 0 2) :=
  ⟨⟨by decide, by decide, by norm_num⟩,
   c6_dispatch_param_snapshot ⟨fun a => a + 10, 2⟩ 1 5 0 2 (by decide) (by decide) (by norm_num)⟩

theorem hf_msg_split_loop_succ (buf : List Char) (p fuel : Nat) (acc : List Nat) :
    hf_msg_split_loop buf p (fuel + 1) acc =
      (if skip_ws buf p = buf.length then (acc, buf)
       else if scan_tok buf (skip_ws buf p + 1) = buf.length then
         (acc ++ [skip_ws buf p], buf)
       else
         hf_msg_split_loop (buf.set (scan_tok buf (skip_ws buf p + 1)) '\x00')
           (scan_tok buf (skip_ws buf p + 1) + 1) fuel (acc ++ [skip_ws buf p])) := rfl

theorem hf_msg_split_loop_ws_end (buf : List Char) (p : Nat) (fuel : Nat) (acc : List Nat)
    (hq : skip_ws buf p = buf.length) :
    hf_msg_split_loop buf p fuel acc = (acc, buf) := by
  cases fuel
  · rfl
  · rw [hf_msg_split_loop_succ, if_pos hq]

/-- C7: splitting the payload "  ind 0 1 2 3  " with any argument
limit of at least 5 yields the token start indices of "ind","0","1",
"2","3", count 5, the buffer NUL-terminated in place after each token,
and reading each argv pointer as a C string gives exactly those five
tokens with the leading and trailing whitespace skipped. -/
theorem c7_split_ind_args (max_argn : Nat) (h : 5 ≤ max_argn) :
    (hf_msg_split_args ("  ind 0 1 2 3  ".toList) max_argn).1 = [2, 6, 8, 10, 12] ∧
    (hf_msg_split_args ("  ind 0 1 2 3  ".toList) max_argn).1.length = 5 ∧
    (hf_msg_split_args ("  ind 0 1 2 3  ".toList) max_argn).2 =
      [' ', ' ', 'i', 'n', 'd', '\x00', '0', '\x00', '1', '\x00', '2', '\x00', '3', '\x00', ' '] ∧
    ((hf_msg_split_args ("  ind 0 1 2 3  ".toList) max_argn).1.map
        (cstr (hf_msg_split_args ("  ind 0 1 2 3  ".toList) max_argn).2)) =
      [['i', 'n', 'd'], ['0'], ['1'], ['2'], ['3']] := by
  obtain ⟨k, rfl⟩ : ∃ k, max_argn = k + 5 := ⟨max_argn - 5, by omega⟩
  have e0 : hf_msg_split_args ("  ind 0 1 2 3  ".toList) (k + 5) =
      hf_msg_split_loop ("  ind 0 1 2 3  ".toList) 0 (k + 5) [] := by
    rw [hf_msg_split_args, if_neg (by omega)]
  have eb : "  ind 0 1 2 3  ".toList = [' ', ' ', 'i', 'n', 'd', ' ', '0', ' ', '1', ' ', '2', ' ', '3', ' ', ' '] := by decide
  have s1 : hf_msg_split_loop [' ', ' ', 'i', 'n', 'd', ' ', '0', ' ', '1', ' ', '2', ' ', '3', ' ', ' '] 0 (k + 5) [] =
      hf_msg_split_loop [' ', ' ', 'i', 'n', 'd', '\x00', '0', ' ', '1', ' ', '2', ' ', '3', ' ', ' '] 6 (k + 4) [2] := by
    show hf_msg_split_loop [' ', ' ', 'i', 'n', 'd', ' ', '0', ' ', '1', ' ', '2', ' ', '3', ' ', ' '] 0 ((k + 4) + 1) [] =
      hf_msg_split_loop [' ', ' ', 'i', 'n', 'd', '\x00', '0', ' ', '1', ' ', '2', ' ', '3', ' ', ' '] 6 (k + 4) [2]
    rw [hf_msg_split_loop_succ, if_neg (by decide), if_neg (by decide)]
    congr 1
  have s2 : hf_msg_split_loop [' ', ' ', 'i', 'n', 'd', '\x00', '0', ' ', '1', ' ', '2', ' ', '3', ' ', ' '] 6 (k + 4) [2] =
      hf_msg_split_loop [' ', ' ', 'i', 'n', 'd', '\x00', '0', '\x00', '1', ' ', '2', ' ', '3', ' ', ' '] 8 (k + 3) [2, 6] := by
    show hf_msg_split_loop [' ', ' ', 'i', 'n', 'd', '\x00', '0', ' ', '1', ' ', '2', ' ', '3', ' ', ' '] 6 ((k + 3) + 1) [2] =
      hf_msg_split_loop [' ', ' ', 'i', 'n', 'd', '\x00', '0', '\x00', '1', ' ', '2', ' ', '3', ' ', ' '] 8 (k + 3) [2, 6]
    rw [hf_msg_split_loop_succ, if_neg (by decide), if_neg (by decide)]
    congr 1
  have s3 : hf_msg_split_loop [' ', ' ', 'i', 'n', 'd', '\x00', '0', '\x00', '1', ' ', '2', ' ', '3', ' ', ' '] 8 (k + 3) [2, 6] =
      hf_msg_split_loop [' ', ' ', 'i', 'n', 'd', '\x00', '0', '\x00', '1', '\x00', '2', ' ', '3', ' ', ' '] 10 (k + 2) [2, 6, 8] := by
    show hf_msg_split_loop [' ', ' ', 'i', 'n', 'd', '\x00', '0', '\x00', '1', ' ', '2', ' ', '3', ' ', ' '] 8 ((k + 2) + 1) [2, 6] =
      hf_msg_split_loop [' ', ' ', 'i', 'n', 'd', '\x00', '0', '\x00', '1', '\x00', '2', ' ', '3', ' ', ' '] 10 (k + 2) [2, 6, 8]
    rw [hf_msg_split_loop_succ, if_neg (by decide), if_neg (by decide)]
    congr 1
  have s4 : hf_msg_split_loop [' ', ' ', 'i', 'n', 'd', '\x00', '0', '\x00', '1', '\x00', '2', ' ', '3', ' ', ' '] 10 (k + 2) [2, 6, 8] =
      hf_msg_split_loop [' ', ' ', 'i', 'n', 'd', '\x00', '0', '\x00', '1', '\x00', '2', '\x00', '3', ' ', ' '] 12 (k + 1) [2, 6, 8, 10] := by
    show hf_msg_split_loop [' ', ' ', 'i', 'n', 'd', '\x00', '0', '\x00', '1', '\x00', '2', ' ', '3', ' ', ' '] 10 ((k + 1) + 1) [2, 6, 8] =
      hf_msg_split_loop [' ', ' ', 'i', 'n', 'd', '\x00', '0', '\x00', '1', '\x00', '2', '\x00', '3', ' ', ' '] 12 (k + 1) [2, 6, 8, 10]
    rw [hf_msg_split_loop_succ, if_neg (by decide), if_neg (by decide)]
    congr 1
  have s5 : hf_msg_split_loop [' ', ' ', 'i', 'n', 'd', '\x00', '0', '\x00', '1', '\x00', '2', '\x00', '3', ' ', ' '] 12 (k + 1) [2, 6, 8, 10] =
      hf_msg_split_loop [' ', ' ', 'i', 'n', 'd', '\x00', '0', '\x00', '1', '\x00', '2', '\x00', '3', '\x00', ' '] 14 (k) [2, 6, 8, 10, 12] := by
    show hf_msg_split_loop [' ', ' ', 'i', 'n', 'd', '\x00', '0', '\x00', '1', '\x00', '2', '\x00', '3', ' ', ' '] 12 ((k) + 1) [2, 6, 8, 10] =
      hf_msg_split_loop [' ', ' ', 'i', 'n', 'd', '\x00', '0', '\x00', '1', '\x00', '2', '\x00', '3', '\x00', ' '] 14 (k) [2, 6, 8, 10, 12]
    rw [hf_msg_split_loop_succ, if_neg (by decide), if_neg (by decide)]
    congr 1
  have s6 : hf_msg_split_loop [' ', ' ', 'i', 'n', 'd', '\x00', '0', '\x00', '1', '\x00', '2', '\x00', '3', '\x00', ' '] 14 k [2, 6, 8, 10, 12] =
      ([2, 6, 8, 10, 12], [' ', ' ', 'i', 'n', 'd', '\x00', '0', '\x00', '1', '\x00', '2', '\x00', '3', '\x00', ' ']) :=
    hf_msg_split_loop_ws_end _ _ _ _ (by decide)
  rw [e0, eb, s1, s2, s3, s4, s5, s6]
  refine ⟨rfl, rfl, rfl, by decide⟩

theorem c7_split_ind_args_witness :
    5 ≤ 20 ∧
    ((hf_msg_split_args ("  ind 0 1 2 3  ".toList) 20).1 = [2, 6, 8, 10, 12] ∧
     (hf_msg_split_args ("  ind 0 1 2 3  ".toList) 20).1.length = 5 ∧
     (hf_msg_split_args ("  ind 0 1 2 3  ".toList) 20).2 =
       [' ', ' ', 'i', 'n', 'd', '\x00', '0', '\x00', '1', '\x00', '2', '\x00', '3', '\x00', ' '] ∧
     ((hf_msg_split_args ("  ind 0 1 2 3  ".toList) 20).1.map
         (cstr (hf_msg_split_args ("  ind 0 1 2 3  ".toList) 20).2)) =
       [['i', 'n', 'd'], ['0'], ['1'], ['2'], ['3']]) :=
  ⟨by decide, c7_split_ind_args 20 (by decide)⟩

/-- C8, code bug: the response-code range test of hf_cme_err_handler
reads `response_code < ESP_HF_AT_RESPONSE_CODE_OK && response_code >
ESP_HF_AT_RESPONSE_CODE_CME`, which no integer satisfies (first
conjunct), so the out-of-range response code 8 passes validation:
`hf ate 8 0;` prints no diagnostic, returns 0 and invokes
esp_hf_ag_cmee_send with response code 8 --- contradicting the usage
text "rep: response code from 0 to 7" and the diagnostic branch the
code clearly meant to take (`||` was intended, as in the error-code
test two lines below). -/
theorem c8_response_range_check_dead :
    (∀ rc : Int, rc ≥ ESP_HF_AT_RESPONSE_CODE_OK ∨ rc ≤ ESP_HF_AT_RESPONSE_CODE_CME) ∧
    (hf_cme_err_handler 3 [("ate".toList), ("8".toList), ("0".toList)]).1 = 0 ∧
    (hf_cme_err_handler 3 [("ate".toList), ("8".toList), ("0".toList)]).2 =
      [.printMacAddressAndRole, .printSendCme, .cmeeSend 8 0] ∧
    ¬ ((8 : Int) ≥ ESP_HF_AT_RESPONSE_CODE_OK ∧ (8 : Int) ≤ ESP_HF_AT_RESPONSE_CODE_CME) := by
  refine ⟨?_, rfl, rfl, by decide⟩
  intro rc
  rw [ESP_HF_AT_RESPONSE_CODE_OK, ESP_HF_AT_RESPONSE_CODE_CME]
  omega

/-- C9, counterexample: the dial handler invoked with argument count
1 prints the diagnostic and does not invoke esp_hf_ag_out_call, but
returns 0, not a non-zero status --- its single return statement yields
0 on every path, unlike the other validating handlers. -/
theorem c9_d_handler_returns_zero :
    (hf_d_handler 1 [("d".toList)]).1 = 0 ∧
    (hf_d_handler 1 [("d".toList)]).2 = [.printMacAddressAndRole, .printInsufficientArgs] :=
  ⟨rfl, rfl⟩

/-- C9, amended: on a wrong argument count the dial handler prints a
diagnostic and performs no dial but returns 0; the volume handler (and
the other validating handlers, ate aside --- see C8) print a diagnostic
and return the non-zero status 1, both on a wrong argument count and on
an out-of-range volume such as "vu 0 20". -/
theorem c9_validation_failures (argn : Nat) (argv : List (List Char))
    (hd : argn ≠ 2) (hv : argn ≠ 3) :
    ((hf_d_handler argn argv).1 = 0 ∧
     (hf_d_handler argn argv).2 = [.printMacAddressAndRole, .printInsufficientArgs]) ∧
    ((hf_volume_control_handler argn argv).1 = 1 ∧
     (hf_volume_control_handler argn argv).2 =
       [.printInsufficientArgs, .printMacAddressAndRole]) ∧
    ((hf_volume_control_handler 3 [("vu".toList), ("0".toList), ("20".toList)]).1 = 1 ∧
     (hf_volume_control_handler 3 [("vu".toList), ("0".toList), ("20".toList)]).2 =
       [.printInvalidArg 2, .printMacAddressAndRole]) := by
  rw [hf_d_handler, if_pos hd, hf_volume_control_handler, if_pos hv]
  exact ⟨⟨rfl, rfl⟩, ⟨rfl, rfl⟩, ⟨rfl, rfl⟩⟩

theorem c9_validation_failures_witness :
    ((1 : Nat) ≠ 2 ∧ (1 : Nat) ≠ 3) ∧
    (((hf_d_handler 1 [("d".toList)]).1 = 0 ∧
      (hf_d_handler 1 [("d".toList)]).2 = [.printMacAddressAndRole, .printInsufficientArgs]) ∧
     ((hf_volume_control_handler 1 [("d".toList)]).1 = 1 ∧
      (hf_volume_control_handler 1 [("d".toList)]).2 =
        [.printInsufficientArgs, .printMacAddressAndRole]) ∧
     ((hf_volume_control_handler 3 [("vu".toList), ("0".toList), ("20".toList)]).1 = 1 ∧
      (hf_volume_control_handler 3 [("vu".toList), ("0".toList), ("20".toList)]).2 =
        [.printInvalidArg 2, .printMacAddressAndRole])) :=
  ⟨⟨by decide, by decide⟩, c9_validation_failures 1 [("d".toList)] (by decide) (by decide)⟩
